import Mathlib

/-!
Verification of the resumable file-transfer protocol in `rtransfer`
(client `send` loop, server `recv` session, retry backoff).

The Go source is shallowly embedded:
* a file is a `List Nat` of bytes; `os.File.WriteAt` becomes `writeAt`
  (splice at an absolute position, zero-padding any hole);
* `f.Read` on a file opened at position 0 returns the next
  `min payloadSize remaining` bytes, and reports end-of-file exactly when
  the current position is at or past the end;
* the gob-encoded messages become plain structures; a lost connection is
  an exhausted message list (the next decode fails);
* the server-side session `(*server).recv` becomes `recv` / `recvLoop`,
  the client-side `send` loop becomes `send` / `sendLoop`, and the two
  engines running in lock-step over one reliable connection become
  `jointSession` / `jointLoop`;
* the exponential backoff of the retry loop becomes `retryTime`.
-/

namespace RTransfer

/-- Fixed block payload size from the source: `const payloadSize = 4096`. -/
def payloadSize : Nat := 4096

/-- Backoff ceiling from the source, in milliseconds:
`const maxRetryTime = time.Second * 20`. -/
def maxRetryTime : Nat := 20000

/-- Initial backoff of the retry loop, in milliseconds:
`retryTime := time.Millisecond * 200`. -/
def initRetryTime : Nat := 200

/-- Wire error codes, from the source's `const ( ErrSuccess = iota; ... )`. -/
def ErrSuccess : Nat := 0

/-- Error code `ErrAlreadyExists` (value 1 by `iota`). -/
def ErrAlreadyExists : Nat := 1

/-- Error code `ErrEmptyFilename` (value 2 by `iota`). -/
def ErrEmptyFilename : Nat := 2

/-- Error code `ErrWrongFile` (value 3 by `iota`). -/
def ErrWrongFile : Nat := 3

/-- Error code `ErrOpen` (value 4 by `iota`). -/
def ErrOpen : Nat := 4

/-- Number of blocks of a file, from the source's `getNumBlocks`:
`numBlocks := size / payloadSize; if size%payloadSize != 0 { numBlocks++ }`. -/
def getNumBlocks (size : Nat) : Nat :=
  let numBlocks := size / payloadSize
  if size % payloadSize ≠ 0 then numBlocks + 1 else numBlocks

/-- Absolute file position of a block, from the source's `getFilePos`:
`int64(seqNum) * int64(payloadSize)`. -/
def getFilePos (seqNum : Nat) : Nat := seqNum * payloadSize

/-- The `startMessage` gob struct: `{ Name string; Size int64 }`. -/
structure startMessage where
  name : String
  size : Nat
deriving DecidableEq

/-- The `ackMessage` gob struct: `{ Name string; SeqNum int; Size int64;
ErrType int }` (the `ResumeAck` of the spec). -/
structure ackMessage where
  name : String
  seqNum : Nat
  size : Nat
  errType : Nat
deriving DecidableEq

/-- The `dataMessage` gob struct: `{ SeqNum int; Data []byte }`. -/
structure dataMessage where
  seqNum : Nat
  data : List Nat
deriving DecidableEq

/-- The mutable transfer fields of the Go `server` struct:
`name string; size int64; seqNum int` (the spec's `ServerTransferState`). -/
structure ServerState where
  name : String
  size : Nat
  seqNum : Nat
deriving DecidableEq

/-- The idle server state: `name=""`, `size=0`, `seqNum=0`. -/
def idleState : ServerState := ⟨"", 0, 0⟩

/-- The ack that `sendClientErr` encodes: `ackMessage{ErrType: errType}`,
every other field left at its zero value. -/
def errAck (errType : Nat) : ackMessage := ⟨"", 0, 0, errType⟩

/-- Model of `os.File.WriteAt data pos`: splice `data` into `file` at
absolute position `pos`, keeping all bytes outside the written range and
zero-filling any gap between the old end of file and `pos`. -/
def writeAt (file : List Nat) (pos : Nat) (data : List Nat) : List Nat :=
  file.take pos ++ List.replicate (pos - file.length) 0 ++ data ++
    file.drop (pos + data.length)

/-- Client-side session errors of the `send` function. -/
inductive SendErr where
  /-- `Hit end of file at ..., while the last block index expected was ...`. -/
  | unexpectedEOF : SendErr
  /-- `Server acked a payload with a different sequence number`. -/
  | seqMismatch : SendErr
  /-- A decode of an expected incoming message failed (connection lost). -/
  | decodeErr : SendErr
  /-- The server's `ResumeAck` carried a non-`Success` error type. -/
  | serverErr (errType : Nat) : SendErr
deriving DecidableEq

/-- The data-block loop of the client `send` function. `c` is the content
of the local file, `pos` the current read position of the opened file
(`os.Open` leaves it at 0 and the source never seeks), `acks` the stream
of `dataAckMessage.SeqNum` values the client will decode. Returns the
`dataMessage`s emitted and the loop's result. A read at or past
end-of-file yields `io.EOF`, which is fatal unless this is the last
block; an exhausted `acks` stream is a decode error. -/
def sendLoop (c : List Nat) (numBlocks seq pos : Nat) (acks : List Nat) :
    List dataMessage × Except SendErr Unit :=
  if seq < numBlocks then
    if c.length ≤ pos ∧ seq ≠ numBlocks - 1 then
      ([], .error .unexpectedEOF)
    else
      let data := (c.drop pos).take payloadSize
      match acks with
      | [] => ([⟨seq, data⟩], .error .decodeErr)
      | a :: rest =>
        if a ≠ seq then ([⟨seq, data⟩], .error .seqMismatch)
        else
          let r := sendLoop c numBlocks (seq + 1) (pos + data.length) rest
          (⟨seq, data⟩ :: r.1, r.2)
  else ([], .ok ())

/-- One client send session (the source's `send`): check the `ResumeAck`,
then run the block loop starting at sequence number `ack.seqNum` but at
file read position 0 (the source opens the file and never seeks). -/
def send (c : List Nat) (ack : ackMessage) (acks : List Nat) :
    List dataMessage × Except SendErr Unit :=
  if ack.errType ≠ ErrSuccess then ([], .error (.serverErr ack.errType))
  else sendLoop c (getNumBlocks c.length) ack.seqNum 0 acks

/-- Result of the server's data-block loop. -/
structure LoopOut where
  state : ServerState
  file : List Nat
  acks : List Nat
  ok : Bool
deriving DecidableEq

/-- The data-block loop of `(*server).recv`: while `seqNum < numBlocks`,
decode a `dataMessage` (failing — connection lost — if the stream `msgs`
is exhausted, which leaves the state exactly as it stands), write its
payload at `getFilePos seqNum`, send `dataAckMessage{seqNum}`, increment
`seqNum`. On completion reset the state to idle. -/
def recvLoop (numBlocks : Nat) (msgs : List dataMessage)
    (st : ServerState) (file : List Nat) : LoopOut :=
  if st.seqNum < numBlocks then
    match msgs with
    | [] => ⟨st, file, [], false⟩
    | m :: rest =>
      let file2 := writeAt file (getFilePos st.seqNum) m.data
      let r := recvLoop numBlocks rest ⟨st.name, st.size, st.seqNum + 1⟩ file2
      ⟨r.state, r.file, st.seqNum :: r.acks, r.ok⟩
  else ⟨idleState, file, [], true⟩

/-- Result of one server receive session. `file` is the content at
`archiveDir/offer.name` afterwards (`none` when the file was never
created), `resumeAck` the `ackMessage` the session sent, `dataAcks` the
`dataAckMessage` sequence numbers it sent, `ok` whether `recv` returned
without error. -/
structure RecvOut where
  state : ServerState
  file : Option (List Nat)
  resumeAck : ackMessage
  dataAcks : List Nat
  ok : Bool
deriving DecidableEq

/-- One server receive session, the source's `(*server).recv`. `existing`
is the content at `archiveDir/offer.name` before the session (`none`
when `fileExists` is false). The rejection chain, the
`fileExists(fpath) && srv.name != startMsg.Name` guard, the
`O_CREATE|O_RDWR` open (create empty, never truncate), the idle-state
initialisation and the success `ackMessage` mirror the source line by
line. -/
def recv (st : ServerState) (existing : Option (List Nat))
    (offer : startMessage) (msgs : List dataMessage) : RecvOut :=
  if offer.name = "" then
    ⟨st, existing, errAck ErrEmptyFilename, [], false⟩
  else if st.name ≠ "" ∧ st.name ≠ offer.name then
    ⟨st, existing, errAck ErrWrongFile, [], false⟩
  else if existing.isSome ∧ st.name ≠ offer.name then
    ⟨st, existing, errAck ErrAlreadyExists, [], false⟩
  else
    let file := existing.getD []
    let st1 := if st.name = "" then (⟨offer.name, offer.size, 0⟩ : ServerState) else st
    let ack : ackMessage := ⟨st1.name, st1.seqNum, st1.size, ErrSuccess⟩
    let r := recvLoop (getNumBlocks st1.size) msgs st1 file
    ⟨r.state, some r.file, ack, r.acks, r.ok⟩

instance : DecidableEq (Except SendErr Unit) := fun a b =>
  match a, b with
  | .ok _, .ok _ => isTrue rfl
  | .error e1, .error e2 =>
    if h : e1 = e2 then isTrue (by rw [h]) else
      isFalse (fun hc => h (by cases hc; rfl))
  | .ok _, .error _ => isFalse (fun hc => Except.noConfusion hc)
  | .error _, .ok _ => isFalse (fun hc => Except.noConfusion hc)

/-- Result of a joint client/server session over one connection. -/
structure JointOut where
  clientRes : Except SendErr Unit
  state : ServerState
  file : List Nat
  ok : Bool
deriving DecidableEq

/-- Lock-step execution of the client and server data-block loops over
one reliable connection, with the client's remaining block count
`fuel = nC - seqC` made explicit (so `seqC < nC` is exactly `fuel ≠ 0`).
Each iteration: the client reads and sends one block (its fatal
end-of-file check first), the server writes it at `getFilePos st.seqNum`
and acks `st.seqNum`, the client checks the ack against its own `seqC`.
Either side leaving the loop while the other still waits shows up as the
other side's decode failure. -/
def jointGo (c : List Nat) (nC nS : Nat) :
    Nat → Nat → Nat → ServerState → List Nat → JointOut
  | fuel, seqC, posC, st, file =>
    if st.seqNum < nS then
      match fuel with
      | 0 =>
        -- client closed; the server's next decode fails, state preserved
        ⟨.ok (), st, file, false⟩
      | fuel' + 1 =>
        if c.length ≤ posC ∧ seqC ≠ nC - 1 then
          -- client aborts with UnexpectedEOF; the server's next decode fails
          ⟨.error .unexpectedEOF, st, file, false⟩
        else
          let data := (c.drop posC).take payloadSize
          let file2 := writeAt file (getFilePos st.seqNum) data
          let st2 : ServerState := ⟨st.name, st.size, st.seqNum + 1⟩
          if st.seqNum ≠ seqC then
            ⟨.error .seqMismatch, st2, file2, false⟩
          else
            jointGo c nC nS fuel' (seqC + 1) (posC + data.length) st2 file2
    else
      -- server finished: clear state to idle and return nil
      match fuel with
      | 0 => ⟨.ok (), idleState, file, true⟩
      | _ + 1 => ⟨.error .decodeErr, idleState, file, true⟩

/-- The lock-step data loop entered at client sequence number `seqC`. -/
def jointLoop (c : List Nat) (nC nS seqC posC : Nat)
    (st : ServerState) (file : List Nat) : JointOut :=
  jointGo c nC nS (nC - seqC) seqC posC st file

/-- Result of a joint session including the handshake. -/
structure SessionOut where
  clientRes : Except SendErr Unit
  state : ServerState
  file : Option (List Nat)
  resumeAck : ackMessage
  ok : Bool
deriving DecidableEq

/-- One full client/server session over a reliable connection: the
client stats its file (basename `name`, content `c`) and sends
`startMessage{name, c.length}`; the server runs its rejection chain and
answers with the `ResumeAck`; on success the client enters its loop at
sequence number `ack.seqNum` and file read position 0 (no seek — the
source's behaviour) while the server enters its loop at `st1.seqNum`. -/
def jointSession (st : ServerState) (existing : Option (List Nat))
    (name : String) (c : List Nat) : SessionOut :=
  let offer : startMessage := ⟨name, c.length⟩
  if offer.name = "" then
    ⟨.error (.serverErr ErrEmptyFilename), st, existing, errAck ErrEmptyFilename, false⟩
  else if st.name ≠ "" ∧ st.name ≠ offer.name then
    ⟨.error (.serverErr ErrWrongFile), st, existing, errAck ErrWrongFile, false⟩
  else if existing.isSome ∧ st.name ≠ offer.name then
    ⟨.error (.serverErr ErrAlreadyExists), st, existing, errAck ErrAlreadyExists, false⟩
  else
    let file := existing.getD []
    let st1 := if st.name = "" then (⟨offer.name, c.length, 0⟩ : ServerState) else st
    let ack : ackMessage := ⟨st1.name, st1.seqNum, st1.size, ErrSuccess⟩
    let r := jointLoop c (getNumBlocks c.length) (getNumBlocks st1.size)
      ack.seqNum 0 st1 file
    ⟨r.clientRes, r.state, some r.file, ack, r.ok⟩

/-- One doubling step of the retry backoff, from the source's `cleanup`:
`if retryTime < maxRetryTime { retryTime *= 2 }`. -/
def nextRetryTime (t : Nat) : Nat :=
  if t < maxRetryTime then 2 * t else t

/-- Backoff slept before re-dialing after the `n`-th consecutive failure
of one `Send` call (in milliseconds): starts at `initRetryTime` and is
doubled by `cleanup` after each sleep while still below `maxRetryTime`. -/
def retryTime : Nat → Nat
  | 0 => initRetryTime
  | n + 1 => nextRetryTime (retryTime n)

/-- The `i`-th block message of a clean sequential read of content `c`. -/
def blockMsg (c : List Nat) (j : Nat) : dataMessage :=
  ⟨j, (c.drop (getFilePos j)).take payloadSize⟩

/-! ### Arithmetic facts about `getNumBlocks` and `getFilePos` -/

lemma getNumBlocks_eq_ceil (n : Nat) :
    getNumBlocks n = (n + payloadSize - 1) / payloadSize := by
  simp only [getNumBlocks, payloadSize]
  split <;> omega

lemma le_getNumBlocks_mul (n : Nat) : n ≤ getNumBlocks n * payloadSize := by
  simp only [getNumBlocks, payloadSize]
  split <;> omega

lemma getFilePos_lt (n seq : Nat) (h : seq < getNumBlocks n) :
    getFilePos seq < n := by
  simp only [getNumBlocks, getFilePos, payloadSize] at *
  split at h <;> omega

lemma getFilePos_succ (seq : Nat) :
    getFilePos (seq + 1) = getFilePos seq + payloadSize := by
  simp only [getFilePos, payloadSize]
  omega

lemma getNumBlocks_zero : getNumBlocks 0 = 0 := by decide

lemma last_block_len (n : Nat) (h : 0 < n) :
    n - (getNumBlocks n - 1) * payloadSize = (n - 1) % payloadSize + 1 := by
  simp only [getNumBlocks, payloadSize] at *
  split <;> omega

/-! ### Facts about `writeAt` -/

lemma writeAt_at_length (f d : List Nat) : writeAt f f.length d = f ++ d := by
  simp [writeAt, List.drop_eq_nil_of_le]

lemma writeAt_length (f d : List Nat) (p : Nat) :
    (writeAt f p d).length = max f.length (p + d.length) := by
  simp only [writeAt, List.length_append, List.length_take,
    List.length_replicate, List.length_drop]
  omega

lemma writeAt_take (f d : List Nat) (p q : Nat) (hq : q ≤ p)
    (hf : q ≤ f.length) : (writeAt f p d).take q = f.take q := by
  have h1 : q ≤ (f.take p).length := by
    simp only [List.length_take]
    omega
  have h2 : q ≤ (f.take p ++ List.replicate (p - f.length) 0).length := by
    simp only [List.length_append]
    omega
  have h3 : q ≤ (f.take p ++ List.replicate (p - f.length) 0 ++ d).length := by
    simp only [List.length_append]
    omega
  simp only [writeAt]
  rw [List.take_append_of_le_length h3, List.take_append_of_le_length h2,
    List.take_append_of_le_length h1, List.take_take, Nat.min_eq_left hq]

/-! ### The server loop: state preservation, and completion -/

lemma recvLoop_nil (N : Nat) (st : ServerState) (file : List Nat) :
    recvLoop N [] st file =
      if st.seqNum < N then ⟨st, file, [], false⟩
      else ⟨idleState, file, [], true⟩ := rfl

lemma recvLoop_cons (N : Nat) (m : dataMessage) (rest : List dataMessage)
    (st : ServerState) (file : List Nat) :
    recvLoop N (m :: rest) st file =
      if st.seqNum < N then
        let r := recvLoop N rest ⟨st.name, st.size, st.seqNum + 1⟩
          (writeAt file (getFilePos st.seqNum) m.data)
        ⟨r.state, r.file, st.seqNum :: r.acks, r.ok⟩
      else ⟨idleState, file, [], true⟩ := rfl

lemma recvLoop_ok_state (N : Nat) :
    ∀ (msgs : List dataMessage) (st : ServerState) (file : List Nat),
      (recvLoop N msgs st file).ok = true →
      (recvLoop N msgs st file).state = idleState := by
  intro msgs
  induction msgs with
  | nil =>
    intro st file h
    rw [recvLoop_nil] at h ⊢
    by_cases hlt : st.seqNum < N
    · rw [if_pos hlt] at h
      simp at h
    · rw [if_neg hlt]
  | cons m rest ih =>
    intro st file h
    rw [recvLoop_cons] at h ⊢
    by_cases hlt : st.seqNum < N
    · rw [if_pos hlt] at h ⊢
      dsimp only at h ⊢
      exact ih _ _ h
    · rw [if_neg hlt]

lemma recvLoop_err_state (N : Nat) :
    ∀ (msgs : List dataMessage) (st : ServerState) (file : List Nat),
      (recvLoop N msgs st file).ok = false →
      (recvLoop N msgs st file).state =
        ⟨st.name, st.size, st.seqNum + (recvLoop N msgs st file).acks.length⟩ ∧
      st.seqNum + (recvLoop N msgs st file).acks.length < N := by
  intro msgs
  induction msgs with
  | nil =>
    intro st file h
    rw [recvLoop_nil] at h ⊢
    by_cases hlt : st.seqNum < N
    · rw [if_pos hlt]
      exact ⟨rfl, by simpa using hlt⟩
    · rw [if_neg hlt] at h
      simp at h
  | cons m rest ih =>
    intro st file h
    rw [recvLoop_cons] at h ⊢
    by_cases hlt : st.seqNum < N
    · rw [if_pos hlt] at h ⊢
      dsimp only at h ⊢
      obtain ⟨ih1, ih2⟩ := ih ⟨st.name, st.size, st.seqNum + 1⟩
        (writeAt file (getFilePos st.seqNum) m.data) h
      dsimp only at ih1 ih2
      refine ⟨?_, ?_⟩
      · rw [ih1]
        simp only [List.length_cons]
        congr 1
        omega
      · simp only [List.length_cons]
        omega
    · rw [if_neg hlt] at h
      simp at h

lemma recvLoop_take (N q : Nat) :
    ∀ (msgs : List dataMessage) (st : ServerState) (file : List Nat),
      q ≤ getFilePos st.seqNum → q ≤ file.length →
      (recvLoop N msgs st file).file.take q = file.take q := by
  intro msgs
  induction msgs with
  | nil =>
    intro st file h1 h2
    rw [recvLoop_nil]
    by_cases hlt : st.seqNum < N
    · rw [if_pos hlt]
    · rw [if_neg hlt]
  | cons m rest ih =>
    intro st file h1 h2
    rw [recvLoop_cons]
    by_cases hlt : st.seqNum < N
    · rw [if_pos hlt]
      dsimp only
      have ha : q ≤ getFilePos (st.seqNum + 1) := by
        rw [getFilePos_succ]
        omega
      have hb : q ≤ (writeAt file (getFilePos st.seqNum) m.data).length := by
        rw [writeAt_length]
        omega
      rw [ih ⟨st.name, st.size, st.seqNum + 1⟩ _ ha hb]
      exact writeAt_take file m.data (getFilePos st.seqNum) q h1 h2
    · rw [if_neg hlt]

lemma recvLoop_congr (N : Nat) :
    ∀ (m1 m2 : List dataMessage) (st : ServerState) (file : List Nat),
      m1.map dataMessage.data = m2.map dataMessage.data →
      recvLoop N m1 st file = recvLoop N m2 st file := by
  intro m1
  induction m1 with
  | nil =>
    intro m2 st file h
    have h2 : m2 = [] := List.map_eq_nil_iff.mp h.symm
    rw [h2]
  | cons a rest ih =>
    intro m2 st file h
    cases m2 with
    | nil => simp at h
    | cons b rest2 =>
      simp only [List.map_cons, List.cons.injEq] at h
      obtain ⟨hd, htl⟩ := h
      rw [recvLoop_cons, recvLoop_cons]
      by_cases hlt : st.seqNum < N
      · rw [if_pos hlt, if_pos hlt]
        dsimp only
        rw [hd, ih rest2 _ _ htl]
      · rw [if_neg hlt, if_neg hlt]

/-! ### Branch characterisations of `recv` -/

lemma recv_reject_empty (st : ServerState) (existing : Option (List Nat))
    (offer : startMessage) (msgs : List dataMessage)
    (h1 : offer.name = "") :
    recv st existing offer msgs =
      ⟨st, existing, errAck ErrEmptyFilename, [], false⟩ := by
  unfold recv
  rw [if_pos h1]

lemma recv_reject_wrong (st : ServerState) (existing : Option (List Nat))
    (offer : startMessage) (msgs : List dataMessage)
    (h1 : ¬offer.name = "") (h2 : st.name ≠ "" ∧ st.name ≠ offer.name) :
    recv st existing offer msgs =
      ⟨st, existing, errAck ErrWrongFile, [], false⟩ := by
  unfold recv
  rw [if_neg h1, if_pos h2]

lemma recv_reject_exists (st : ServerState) (existing : Option (List Nat))
    (offer : startMessage) (msgs : List dataMessage)
    (h1 : ¬offer.name = "") (h2 : ¬(st.name ≠ "" ∧ st.name ≠ offer.name))
    (h3 : existing.isSome = true ∧ st.name ≠ offer.name) :
    recv st existing offer msgs =
      ⟨st, existing, errAck ErrAlreadyExists, [], false⟩ := by
  unfold recv
  rw [if_neg h1, if_neg h2, if_pos h3]

lemma recv_success_eq (st : ServerState) (existing : Option (List Nat))
    (offer : startMessage) (msgs : List dataMessage)
    (h1 : ¬offer.name = "") (h2 : ¬(st.name ≠ "" ∧ st.name ≠ offer.name))
    (h3 : ¬(existing.isSome = true ∧ st.name ≠ offer.name)) :
    recv st existing offer msgs =
      let st1 := if st.name = "" then
        (⟨offer.name, offer.size, 0⟩ : ServerState) else st
      let r := recvLoop (getNumBlocks st1.size) msgs st1 (existing.getD [])
      ⟨r.state, some r.file, ⟨st1.name, st1.seqNum, st1.size, ErrSuccess⟩,
        r.acks, r.ok⟩ := by
  unfold recv
  rw [if_neg h1, if_neg h2, if_neg h3]

/-! ### Claim C4 -/

/-- C4, counterexample: a session in which the server is resuming its own
in-progress transfer (`state.name = offer.name = "a"`) while a partial
file exists at `archiveDir/offer.name` is NOT rejected with
`AlreadyExists`: the guard `fileExists(fpath) && srv.name != startMsg.Name`
is false on resumption, so the server answers `ResumeAck{Success}`. -/
theorem c4_counterexample :
    (recv ⟨"a", 4097, 1⟩ (some (List.replicate 4096 9)) ⟨"a", 4097⟩
        []).resumeAck.errType = ErrSuccess ∧
    ErrSuccess ≠ ErrAlreadyExists := by
  exact ⟨rfl, by decide⟩

/-- C4, amended: the server rejects a session with
`ResumeAck{errType=AlreadyExists}` exactly when the offered name is
non-empty, the server is idle, and the file already exists; in the
resumption case (`state.name = offer.name`) the `fileExists` check does
not fire. -/
theorem c4_amended_already_exists_iff (st : ServerState)
    (existing : Option (List Nat)) (offer : startMessage)
    (msgs : List dataMessage) :
    (recv st existing offer msgs).resumeAck.errType = ErrAlreadyExists ↔
      offer.name ≠ "" ∧ st.name = "" ∧ existing.isSome = true := by
  by_cases h1 : offer.name = ""
  · rw [recv_reject_empty st existing offer msgs h1]
    simp [errAck, ErrEmptyFilename, ErrAlreadyExists, h1]
  · by_cases h2 : st.name ≠ "" ∧ st.name ≠ offer.name
    · rw [recv_reject_wrong st existing offer msgs h1 h2]
      simp [errAck, ErrWrongFile, ErrAlreadyExists, h2.1]
    · by_cases h3 : existing.isSome = true ∧ st.name ≠ offer.name
      · rw [recv_reject_exists st existing offer msgs h1 h2 h3]
        have hidle : st.name = "" := by
          by_contra hc
          exact h2 ⟨hc, h3.2⟩
        simp [errAck, ErrAlreadyExists, h1, h3.1, hidle]
      · rw [recv_success_eq st existing offer msgs h1 h2 h3]
        dsimp only
        constructor
        · intro hcontra
          exact absurd hcontra (by decide)
        · rintro ⟨ha, hb, hc⟩
          exact absurd ⟨hc, by rw [hb]; exact fun he => ha he.symm⟩ h3

/-- C4, witness for the amended claim at a concrete idle-server input. -/
theorem c4_amended_witness :
    (recv idleState (some [7]) ⟨"a", 1⟩ []).resumeAck.errType =
        ErrAlreadyExists ↔
      ("a" : String) ≠ "" ∧ ("" : String) = "" ∧
        (some [7] : Option (List Nat)).isSome = true :=
  c4_amended_already_exists_iff idleState (some [7]) ⟨"a", 1⟩ []

/-! ### Claim C5 -/

/-- C5: once the server has sent `ResumeAck{Success}`, an error before
completion (connection lost after some number of acknowledged blocks)
leaves `ServerTransferState` exactly as it stood: name and size as
advertised in the `ResumeAck`, and `seqNum` equal to the advertised
resume point plus the number of `DataAck`s sent in this session, still
short of `numBlocks`; the state is reset to idle only when the session
completes all blocks successfully. -/
theorem c5_state_preservation (st : ServerState)
    (existing : Option (List Nat)) (offer : startMessage)
    (msgs : List dataMessage)
    (h : (recv st existing offer msgs).resumeAck.errType = ErrSuccess) :
    ((recv st existing offer msgs).ok = false →
      (recv st existing offer msgs).state =
        ⟨(recv st existing offer msgs).resumeAck.name,
         (recv st existing offer msgs).resumeAck.size,
         (recv st existing offer msgs).resumeAck.seqNum +
           (recv st existing offer msgs).dataAcks.length⟩ ∧
      (recv st existing offer msgs).state.seqNum <
        getNumBlocks (recv st existing offer msgs).resumeAck.size) ∧
    ((recv st existing offer msgs).ok = true →
      (recv st existing offer msgs).state = idleState) := by
  by_cases h1 : offer.name = ""
  · rw [recv_reject_empty st existing offer msgs h1] at h
    simp [errAck, ErrEmptyFilename, ErrSuccess] at h
  · by_cases h2 : st.name ≠ "" ∧ st.name ≠ offer.name
    · rw [recv_reject_wrong st existing offer msgs h1 h2] at h
      simp [errAck, ErrWrongFile, ErrSuccess] at h
    · by_cases h3 : existing.isSome = true ∧ st.name ≠ offer.name
      · rw [recv_reject_exists st existing offer msgs h1 h2 h3] at h
        simp [errAck, ErrAlreadyExists, ErrSuccess] at h
      · rw [recv_success_eq st existing offer msgs h1 h2 h3]
        dsimp only
        constructor
        · intro hok
          obtain ⟨he1, he2⟩ := recvLoop_err_state _ msgs _ _ hok
          refine ⟨by rw [he1], ?_⟩
          rw [he1]
          exact he2
        · intro hok
          exact recvLoop_ok_state _ msgs _ _ hok

/-- C5, witness: a session that sent `ResumeAck{Success}` and then lost
the connection before receiving any block. -/
theorem c5_witness :
    ((recv idleState none ⟨"a", 1⟩ []).ok = false →
      (recv idleState none ⟨"a", 1⟩ []).state =
        ⟨(recv idleState none ⟨"a", 1⟩ []).resumeAck.name,
         (recv idleState none ⟨"a", 1⟩ []).resumeAck.size,
         (recv idleState none ⟨"a", 1⟩ []).resumeAck.seqNum +
           (recv idleState none ⟨"a", 1⟩ []).dataAcks.length⟩ ∧
      (recv idleState none ⟨"a", 1⟩ []).state.seqNum <
        getNumBlocks (recv idleState none ⟨"a", 1⟩ []).resumeAck.size) ∧
    ((recv idleState none ⟨"a", 1⟩ []).ok = true →
      (recv idleState none ⟨"a", 1⟩ []).state = idleState) :=
  c5_state_preservation idleState none ⟨"a", 1⟩ [] rfl

/-! ### Claim C7 -/

/-- C7, counterexample: a `WrongFile` rejection sent while the transfer
of `"a"` is in progress carries `name=""` and `size=0` — not the
in-progress file's name and size — because `sendClientErr` encodes
`ackMessage{ErrType: errType}` with all other fields zero. -/
theorem c7_counterexample :
    (recv ⟨"a", 5, 0⟩ none ⟨"b", 3⟩ []).resumeAck.errType = ErrWrongFile ∧
    (recv ⟨"a", 5, 0⟩ none ⟨"b", 3⟩ []).resumeAck.name = "" ∧
    (recv ⟨"a", 5, 0⟩ none ⟨"b", 3⟩ []).resumeAck.size = 0 ∧
    (⟨"a", 5, 0⟩ : ServerState).name ≠ "" := by
  exact ⟨rfl, rfl, rfl, by decide⟩

/-- C7, amended: a `Success` `ResumeAck` echoes the in-progress file
(the offered file when the server was idle, the stored one otherwise)
and its name is never empty; every error `ResumeAck` carries `name=""`
and `size=0` regardless of the server's state. -/
theorem c7_amended_ack_fields (st : ServerState)
    (existing : Option (List Nat)) (offer : startMessage)
    (msgs : List dataMessage) :
    ((recv st existing offer msgs).resumeAck.errType = ErrSuccess →
      (recv st existing offer msgs).resumeAck.name =
        (if st.name = "" then offer.name else st.name) ∧
      (recv st existing offer msgs).resumeAck.size =
        (if st.name = "" then offer.size else st.size) ∧
      (recv st existing offer msgs).resumeAck.name ≠ "") ∧
    ((recv st existing offer msgs).resumeAck.errType ≠ ErrSuccess →
      (recv st existing offer msgs).resumeAck.name = "" ∧
      (recv st existing offer msgs).resumeAck.size = 0) := by
  by_cases h1 : offer.name = ""
  · rw [recv_reject_empty st existing offer msgs h1]
    constructor
    · intro hc
      simp [errAck, ErrEmptyFilename, ErrSuccess] at hc
    · intro _
      exact ⟨rfl, rfl⟩
  · by_cases h2 : st.name ≠ "" ∧ st.name ≠ offer.name
    · rw [recv_reject_wrong st existing offer msgs h1 h2]
      constructor
      · intro hc
        simp [errAck, ErrWrongFile, ErrSuccess] at hc
      · intro _
        exact ⟨rfl, rfl⟩
    · by_cases h3 : existing.isSome = true ∧ st.name ≠ offer.name
      · rw [recv_reject_exists st existing offer msgs h1 h2 h3]
        constructor
        · intro hc
          simp [errAck, ErrAlreadyExists, ErrSuccess] at hc
        · intro _
          exact ⟨rfl, rfl⟩
      · rw [recv_success_eq st existing offer msgs h1 h2 h3]
        dsimp only
        refine ⟨fun _ => ⟨?_, ?_, ?_⟩, fun hc => absurd rfl hc⟩
        · by_cases hidle : st.name = ""
          · rw [if_pos hidle, if_pos hidle]
          · rw [if_neg hidle, if_neg hidle]
        · by_cases hidle : st.name = ""
          · rw [if_pos hidle, if_pos hidle]
          · rw [if_neg hidle, if_neg hidle]
        · by_cases hidle : st.name = ""
          · rw [if_pos hidle]
            exact h1
          · rw [if_neg hidle]
            exact hidle

/-- C7, witness for the amended claim on a concrete resuming session. -/
theorem c7_amended_witness :
    ((recv ⟨"a", 5, 2⟩ none ⟨"a", 5⟩ []).resumeAck.errType = ErrSuccess →
      (recv ⟨"a", 5, 2⟩ none ⟨"a", 5⟩ []).resumeAck.name =
        (if ("a" : String) = "" then "a" else "a") ∧
      (recv ⟨"a", 5, 2⟩ none ⟨"a", 5⟩ []).resumeAck.size =
        (if ("a" : String) = "" then 5 else 5) ∧
      (recv ⟨"a", 5, 2⟩ none ⟨"a", 5⟩ []).resumeAck.name ≠ "") ∧
    ((recv ⟨"a", 5, 2⟩ none ⟨"a", 5⟩ []).resumeAck.errType ≠ ErrSuccess →
      (recv ⟨"a", 5, 2⟩ none ⟨"a", 5⟩ []).resumeAck.name = "" ∧
      (recv ⟨"a", 5, 2⟩ none ⟨"a", 5⟩ []).resumeAck.size = 0) :=
  c7_amended_ack_fields ⟨"a", 5, 2⟩ none ⟨"a", 5⟩ []

/-! ### Claim C9 -/

/-- C9: the server never reads the incoming `DataBlock.seqNum` field —
for two incoming streams whose `DataBlock`s carry the same payloads but
arbitrary sequence numbers, the whole session result (bytes written,
`DataAck`s sent, final state, `ResumeAck`) is identical. -/
theorem c9_seqnum_independence (st : ServerState)
    (existing : Option (List Nat)) (offer : startMessage)
    (m1 m2 : List dataMessage)
    (h : m1.map dataMessage.data = m2.map dataMessage.data) :
    recv st existing offer m1 = recv st existing offer m2 := by
  by_cases h1 : offer.name = ""
  · rw [recv_reject_empty st existing offer m1 h1,
      recv_reject_empty st existing offer m2 h1]
  · by_cases h2 : st.name ≠ "" ∧ st.name ≠ offer.name
    · rw [recv_reject_wrong st existing offer m1 h1 h2,
        recv_reject_wrong st existing offer m2 h1 h2]
    · by_cases h3 : existing.isSome = true ∧ st.name ≠ offer.name
      · rw [recv_reject_exists st existing offer m1 h1 h2 h3,
          recv_reject_exists st existing offer m2 h1 h2 h3]
      · rw [recv_success_eq st existing offer m1 h1 h2 h3,
          recv_success_eq st existing offer m2 h1 h2 h3]
        dsimp only
        rw [recvLoop_congr _ m1 m2 _ _ h]

/-- C9, witness: two one-block streams that differ only in the
`DataBlock.seqNum` field produce identical sessions. -/
theorem c9_witness :
    [(⟨5, [1]⟩ : dataMessage)].map dataMessage.data =
      [(⟨9, [1]⟩ : dataMessage)].map dataMessage.data ∧
    recv idleState none ⟨"a", 1⟩ [⟨5, [1]⟩] =
      recv idleState none ⟨"a", 1⟩ [⟨9, [1]⟩] :=
  ⟨by decide, c9_seqnum_independence idleState none ⟨"a", 1⟩ _ _ (by decide)⟩

/-! ### Claim C10 -/

/-- C10: the server opens the archive file without truncation
(`O_CREATE|O_RDWR`), and a resumed session (`state.name = offer.name`)
writes only at positions `getFilePos k` for `k ≥ state.seqNum`, so every
byte below `getFilePos state.seqNum` that existed before the session is
unchanged by it. -/
theorem c10_resume_preserves_prefix (st : ServerState) (f0 : List Nat)
    (offer : startMessage) (msgs : List dataMessage)
    (h1 : st.name = offer.name) (h2 : offer.name ≠ "")
    (q : Nat) (hq : q ≤ getFilePos st.seqNum) (hf : q ≤ f0.length) :
    ((recv st (some f0) offer msgs).file.getD []).take q = f0.take q := by
  have hst : st.name ≠ "" := by
    rw [h1]
    exact h2
  rw [recv_success_eq st (some f0) offer msgs h2
    (fun hc => hc.2 h1) (fun hc => hc.2 h1)]
  dsimp only
  simp only [if_neg hst]
  exact recvLoop_take _ q msgs st f0 hq hf

/-- C10, witness: a resumed session at `seqNum = 1` over an existing
byte leaves that byte intact. -/
theorem c10_witness :
    ((recv ⟨"a", 4097, 1⟩ (some [9]) ⟨"a", 4097⟩
        [⟨1, [5]⟩]).file.getD []).take 1 = [9].take 1 :=
  c10_resume_preserves_prefix ⟨"a", 4097, 1⟩ [9] ⟨"a", 4097⟩ [⟨1, [5]⟩]
    rfl (by decide) 1 (by decide) (by decide)

/-! ### Claim C6 -/

lemma retryTime_closed (n : Nat) : retryTime n = min (200 * 2 ^ n) 25600 := by
  induction n with
  | zero => rfl
  | succ n ih =>
    simp only [retryTime, nextRetryTime, maxRetryTime]
    rw [ih]
    rcases le_or_lt n 6 with h6 | h6
    · have hpow : 2 ^ n ≤ 64 := by
        calc 2 ^ n ≤ 2 ^ 6 := Nat.pow_le_pow_right (by norm_num) h6
        _ = 64 := by norm_num
      rw [Nat.min_eq_left (by omega), if_pos (by omega),
        Nat.min_eq_left (by rw [pow_succ]; omega), pow_succ]
      omega
    · have hpow : 128 ≤ 2 ^ n := by
        calc (128 : Nat) = 2 ^ 7 := by norm_num
        _ ≤ 2 ^ n := Nat.pow_le_pow_right (by norm_num) h6
      rw [Nat.min_eq_right (by omega), if_neg (by omega),
        Nat.min_eq_right (by rw [pow_succ]; omega)]

/-- C6, counterexample: after seven consecutive failures the cleanup
routine sleeps 25600 ms, which exceeds `maxRetryTime = 20000` ms — the
source only stops doubling once the value is at or above the ceiling,
so the backoff overshoots to 25.6 s. -/
theorem c6_counterexample :
    retryTime 7 = 25600 ∧ maxRetryTime = 20000 ∧
      maxRetryTime < retryTime 7 := by
  decide

/-- C6, amended: the backoff of a `Send` call starts at 200 ms, doubles
after a failure exactly while it is still below `maxRetryTime = 20 s`,
and never exceeds 25600 ms (the first doubled value at or above the
ceiling, where it then stays). -/
theorem c6_amended_backoff (n : Nat) :
    retryTime 0 = 200 ∧
    (retryTime n < maxRetryTime → retryTime (n + 1) = 2 * retryTime n) ∧
    (maxRetryTime ≤ retryTime n → retryTime (n + 1) = retryTime n) ∧
    retryTime n ≤ 25600 := by
  refine ⟨rfl, ?_, ?_, ?_⟩
  · intro h
    simp only [retryTime, nextRetryTime]
    rw [if_pos h]
  · intro h
    simp only [retryTime, nextRetryTime]
    rw [if_neg (by omega)]
  · rw [retryTime_closed]
    exact Nat.min_le_right _ _

/-- C6, witness for the amended claim at the seventh failure. -/
theorem c6_amended_witness :
    retryTime 0 = 200 ∧
    (retryTime 7 < maxRetryTime → retryTime (7 + 1) = 2 * retryTime 7) ∧
    (maxRetryTime ≤ retryTime 7 → retryTime (7 + 1) = retryTime 7) ∧
    retryTime 7 ≤ 25600 :=
  c6_amended_backoff 7

/-! ### Claim C8 -/

/-- C8: a zero-size file has `getNumBlocks 0 = 0` blocks; the client
loop emits no `DataBlock` and returns success, and the server session
performs no write (the created file stays empty), sends no `DataAck`,
and ends with its state cleared to idle. -/
theorem c8_zero_size (name : String) (h : name ≠ "") :
    getNumBlocks 0 = 0 ∧
    sendLoop [] (getNumBlocks 0) 0 0 [] = ([], .ok ()) ∧
    recv idleState none ⟨name, 0⟩ [] =
      ⟨idleState, some [], ⟨name, 0, 0, ErrSuccess⟩, [], true⟩ := by
  refine ⟨getNumBlocks_zero, rfl, ?_⟩
  rw [recv_success_eq idleState none ⟨name, 0⟩ [] h
    (fun hc => hc.1 rfl) (fun hc => by simp at hc)]
  dsimp only
  rw [if_pos (show idleState.name = "" from rfl)]
  rw [recvLoop_nil]
  rw [if_neg (by rw [getNumBlocks_zero]; omega)]
  rfl

/-- C8, witness at a concrete one-letter file name. -/
theorem c8_zero_size_witness :
    getNumBlocks 0 = 0 ∧
    sendLoop [] (getNumBlocks 0) 0 0 [] = ([], .ok ()) ∧
    recv idleState none ⟨"a", 0⟩ [] =
      ⟨idleState, some [], ⟨"a", 0, 0, ErrSuccess⟩, [], true⟩ :=
  c8_zero_size "a" (by decide)

/-! ### Claim C3: the client loop in a successful run -/

lemma sendLoop_nil (c : List Nat) (n seq pos : Nat) :
    sendLoop c n seq pos [] =
      if seq < n then
        if c.length ≤ pos ∧ seq ≠ n - 1 then ([], .error .unexpectedEOF)
        else ([⟨seq, (c.drop pos).take payloadSize⟩], .error .decodeErr)
      else ([], .ok ()) := rfl

lemma sendLoop_cons (c : List Nat) (n seq pos a : Nat) (rest : List Nat) :
    sendLoop c n seq pos (a :: rest) =
      if seq < n then
        if c.length ≤ pos ∧ seq ≠ n - 1 then ([], .error .unexpectedEOF)
        else
          let data := (c.drop pos).take payloadSize
          if a ≠ seq then ([⟨seq, data⟩], .error .seqMismatch)
          else
            let r := sendLoop c n (seq + 1) (pos + data.length) rest
            (⟨seq, data⟩ :: r.1, r.2)
      else ([], .ok ()) := rfl

lemma sendLoop_stop (c : List Nat) (n seq pos : Nat) (acks : List Nat)
    (h : ¬seq < n) : sendLoop c n seq pos acks = ([], .ok ()) := by
  cases acks with
  | nil => rw [sendLoop_nil, if_neg h]
  | cons a rest => rw [sendLoop_cons, if_neg h]

lemma sendLoop_ok_eq (c : List Nat) :
    ∀ (k seq pos : Nat) (acks : List Nat) (out : List dataMessage),
      seq + k = getNumBlocks c.length →
      pos = min (getFilePos seq) c.length →
      sendLoop c (getNumBlocks c.length) seq pos acks = (out, .ok ()) →
      out = (List.range k).map fun i => blockMsg c (seq + i) := by
  intro k
  induction k with
  | zero =>
    intro seq pos acks out hsum hpos hrun
    rw [sendLoop_stop _ _ _ _ _ (by omega)] at hrun
    have h1 : out = [] := by
      have h2 := congrArg Prod.fst hrun
      simpa using h2.symm
    rw [h1]
    simp
  | succ k ih =>
    intro seq pos acks out hsum hpos hrun
    have hlt : seq < getNumBlocks c.length := by omega
    have hpos_lt : getFilePos seq < c.length := getFilePos_lt _ _ hlt
    rw [hpos, Nat.min_eq_left (Nat.le_of_lt hpos_lt)] at hrun
    have hne : ¬(c.length ≤ getFilePos seq ∧ seq ≠ getNumBlocks c.length - 1) :=
      fun hc => absurd hc.1 (by omega)
    cases acks with
    | nil =>
      rw [sendLoop_nil, if_pos hlt, if_neg hne] at hrun
      simp at hrun
    | cons a rest =>
      rw [sendLoop_cons, if_pos hlt, if_neg hne] at hrun
      dsimp only at hrun
      by_cases ha : a ≠ seq
      · rw [if_pos ha] at hrun
        simp at hrun
      · rw [if_neg ha] at hrun
        rw [Prod.ext_iff] at hrun
        obtain ⟨ho, hr⟩ := hrun
        dsimp only at ho hr
        have hlen : ((c.drop (getFilePos seq)).take payloadSize).length =
            min payloadSize (c.length - getFilePos seq) := by
          simp [List.length_take, List.length_drop]
        have hpos2 : getFilePos seq +
            ((c.drop (getFilePos seq)).take payloadSize).length =
            min (getFilePos (seq + 1)) c.length := by
          rw [hlen, getFilePos_succ]
          omega
        rw [hpos2] at ho hr
        have hrec : sendLoop c (getNumBlocks c.length) (seq + 1)
            (min (getFilePos (seq + 1)) c.length) rest =
            ((sendLoop c (getNumBlocks c.length) (seq + 1)
              (min (getFilePos (seq + 1)) c.length) rest).1, .ok ()) := by
          rw [← hr]
        have hres := ih (seq + 1) (min (getFilePos (seq + 1)) c.length)
          rest _ (by omega) rfl hrec
        rw [← ho, hres]
        rw [List.range_succ_eq_map, List.map_cons, List.map_map]
        have hhead : (⟨seq, (c.drop (getFilePos seq)).take payloadSize⟩ :
            dataMessage) = blockMsg c (seq + 0) := by
          simp [blockMsg]
        rw [hhead]
        refine congrArg _ (List.map_congr_left fun i _ => ?_)
        have heq : seq + 1 + i = seq + Nat.succ i := by omega
        simp [Function.comp, heq]

/-- C3: in any successful run of the client loop for a fresh transfer
(`ResumeAck{Success}` with `seqNum = 0`), the client emits exactly
`getNumBlocks n = ceil(n / 4096)` `DataBlock`s; every block except the
last carries exactly `payloadSize` bytes; the last carries
`((n - 1) mod 4096) + 1` bytes when `n > 0`; and no block is emitted
when `n = 0`. -/
theorem c3_block_length_law (c : List Nat) (nm : String) (acks : List Nat)
    (msgs : List dataMessage)
    (h : send c ⟨nm, 0, c.length, ErrSuccess⟩ acks = (msgs, .ok ())) :
    msgs.length = getNumBlocks c.length ∧
    msgs.length = (c.length + payloadSize - 1) / payloadSize ∧
    (∀ i (hi : i < msgs.length), i + 1 < msgs.length →
      msgs[i].data.length = payloadSize) ∧
    (c.length ≠ 0 → ∀ i (hi : i < msgs.length), i + 1 = msgs.length →
      msgs[i].data.length = (c.length - 1) % payloadSize + 1) ∧
    (c.length = 0 → msgs = []) := by
  unfold send at h
  rw [if_neg (fun hc => hc rfl)] at h
  dsimp only at h
  have h0 : (0 : Nat) = min (getFilePos 0) c.length := by
    simp [getFilePos]
  have hmsgs := sendLoop_ok_eq c (getNumBlocks c.length) 0 0 acks msgs
    (by omega) h0 h
  simp only [Nat.zero_add] at hmsgs
  have hlenm : msgs.length = getNumBlocks c.length := by
    rw [hmsgs, List.length_map, List.length_range]
  refine ⟨hlenm, ?_, ?_, ?_, ?_⟩
  · rw [hlenm, getNumBlocks_eq_ceil]
  · intro i hi hi1
    have hiN : i < getNumBlocks c.length := hlenm ▸ hi
    have h1N : i + 1 < getNumBlocks c.length := hlenm ▸ hi1
    have hgetm : msgs[i] = blockMsg c i := by
      have hmr : i < (List.range (getNumBlocks c.length)).length := by
        rw [List.length_range]
        exact hiN
      rw [List.getElem_of_eq hmsgs, List.getElem_map, List.getElem_range]
    rw [hgetm]
    have hlt1 : getFilePos (i + 1) < c.length := getFilePos_lt _ _ h1N
    rw [getFilePos_succ] at hlt1
    simp only [blockMsg, List.length_take, List.length_drop]
    omega
  · intro hn i hi hi1
    have hiN : i < getNumBlocks c.length := hlenm ▸ hi
    have hgetm : msgs[i] = blockMsg c i := by
      rw [List.getElem_of_eq hmsgs, List.getElem_map, List.getElem_range]
    rw [hgetm]
    have hlast : i = getNumBlocks c.length - 1 := by omega
    have hlt : getFilePos i < c.length := getFilePos_lt _ _ hiN
    have hle : c.length ≤ getNumBlocks c.length * payloadSize :=
      le_getNumBlocks_mul c.length
    have htail := last_block_len c.length (by omega)
    simp only [blockMsg, List.length_take, List.length_drop, getFilePos,
      payloadSize] at hlt hle htail ⊢
    rw [hlast] at hlt ⊢
    omega
  · intro hn
    rw [hmsgs]
    have : getNumBlocks c.length = 0 := by
      rw [hn]
      exact getNumBlocks_zero
    rw [this]
    simp

/-- C3, witness: a 3-byte file in one successful session emits exactly
one 3-byte block. -/
theorem c3_witness :
    [(⟨0, [1, 2, 3]⟩ : dataMessage)].length = getNumBlocks 3 ∧
    [(⟨0, [1, 2, 3]⟩ : dataMessage)].length =
      (3 + payloadSize - 1) / payloadSize ∧
    (∀ i (hi : i < [(⟨0, [1, 2, 3]⟩ : dataMessage)].length),
      i + 1 < [(⟨0, [1, 2, 3]⟩ : dataMessage)].length →
      [(⟨0, [1, 2, 3]⟩ : dataMessage)][i].data.length = payloadSize) ∧
    ((3 : Nat) ≠ 0 → ∀ i (hi : i < [(⟨0, [1, 2, 3]⟩ : dataMessage)].length),
      i + 1 = [(⟨0, [1, 2, 3]⟩ : dataMessage)].length →
      [(⟨0, [1, 2, 3]⟩ : dataMessage)][i].data.length =
        (3 - 1) % payloadSize + 1) ∧
    ((3 : Nat) = 0 → [(⟨0, [1, 2, 3]⟩ : dataMessage)] = []) :=
  c3_block_length_law [1, 2, 3] "a" [0] [⟨0, [1, 2, 3]⟩] (by decide)

/-! ### Claim C1: the clean round trip -/

lemma jointGo_zero (c : List Nat) (nC nS seqC posC : Nat)
    (st : ServerState) (file : List Nat) :
    jointGo c nC nS 0 seqC posC st file =
      if st.seqNum < nS then ⟨.ok (), st, file, false⟩
      else ⟨.ok (), idleState, file, true⟩ := rfl

lemma jointGo_succ (c : List Nat) (nC nS fuel seqC posC : Nat)
    (st : ServerState) (file : List Nat) :
    jointGo c nC nS (fuel + 1) seqC posC st file =
      if st.seqNum < nS then
        if c.length ≤ posC ∧ seqC ≠ nC - 1 then
          ⟨.error .unexpectedEOF, st, file, false⟩
        else
          let data := (c.drop posC).take payloadSize
          let file2 := writeAt file (getFilePos st.seqNum) data
          let st2 : ServerState := ⟨st.name, st.size, st.seqNum + 1⟩
          if st.seqNum ≠ seqC then ⟨.error .seqMismatch, st2, file2, false⟩
          else jointGo c nC nS fuel (seqC + 1) (posC + data.length) st2 file2
      else ⟨.error .decodeErr, idleState, file, true⟩ := rfl

lemma writeAt_append_of_len (f : List Nat) (pos : Nat) (d : List Nat)
    (h : f.length = pos) : writeAt f pos d = f ++ d := by
  rw [← h]
  exact writeAt_at_length f d

lemma jointGo_clean (c : List Nat) (nm : String) (sz : Nat) :
    ∀ (fuel seq : Nat), seq + fuel = getNumBlocks c.length →
      jointGo c (getNumBlocks c.length) (getNumBlocks c.length) fuel seq
        (min (getFilePos seq) c.length) ⟨nm, sz, seq⟩
        (c.take (getFilePos seq)) = ⟨.ok (), idleState, c, true⟩ := by
  intro fuel
  induction fuel with
  | zero =>
    intro seq hsum
    rw [jointGo_zero]
    rw [if_neg (show ¬(ServerState.seqNum ⟨nm, sz, seq⟩ <
      getNumBlocks c.length) from by dsimp only; omega)]
    have hle : c.length ≤ getFilePos seq := by
      have h1 := le_getNumBlocks_mul c.length
      have hseq : seq = getNumBlocks c.length := by omega
      rw [hseq]
      simp only [getFilePos]
      exact h1
    rw [List.take_of_length_le hle]
  | succ fuel ih =>
    intro seq hsum
    have hlt : seq < getNumBlocks c.length := by omega
    have hpos_lt : getFilePos seq < c.length := getFilePos_lt _ _ hlt
    rw [Nat.min_eq_left (Nat.le_of_lt hpos_lt)]
    rw [jointGo_succ]
    rw [if_pos (show ServerState.seqNum ⟨nm, sz, seq⟩ <
      getNumBlocks c.length from hlt)]
    rw [if_neg (show ¬(c.length ≤ getFilePos seq ∧
      seq ≠ getNumBlocks c.length - 1) from fun hc => absurd hc.1 (by omega))]
    dsimp only
    rw [if_neg (show ¬(seq ≠ seq) from fun hc => hc rfl)]
    have htl : (c.take (getFilePos seq)).length = getFilePos seq := by
      simp only [List.length_take]
      omega
    rw [writeAt_append_of_len _ _ _ htl]
    have happ : c.take (getFilePos seq) ++
        (c.drop (getFilePos seq)).take payloadSize =
        c.take (getFilePos (seq + 1)) := by
      rw [getFilePos_succ]
      exact (List.take_add c _ _).symm
    rw [happ]
    have hlen2 : getFilePos seq +
        ((c.drop (getFilePos seq)).take payloadSize).length =
        min (getFilePos (seq + 1)) c.length := by
      simp only [List.length_take, List.length_drop]
      rw [getFilePos_succ]
      omega
    rw [hlen2]
    exact ih (seq + 1) (by omega)

/-- C1: submitting a file of any size up to 10 MB to an idle server with
no existing archive file runs one clean session to completion: the
client returns success, the server acknowledges every block, clears its
state, and the archive file's bytes equal the source file's bytes. -/
theorem c1_round_trip (c : List Nat) (name : String) (h1 : name ≠ "")
    (h2 : c.length ≤ 10 * 1024 * 1024) :
    jointSession idleState none name c =
      ⟨.ok (), idleState, some c, ⟨name, 0, c.length, ErrSuccess⟩, true⟩ := by
  unfold jointSession
  try dsimp only
  rw [if_neg h1]
  rw [if_neg (show ¬(idleState.name ≠ "" ∧ idleState.name ≠ name) from
    fun hc => hc.1 rfl)]
  rw [if_neg (show ¬((none : Option (List Nat)).isSome = true ∧
    idleState.name ≠ name) from fun hc => nomatch hc.1)]
  try dsimp only
  rw [if_pos (show idleState.name = "" from rfl)]
  unfold jointLoop
  try dsimp only
  have hj := jointGo_clean c name c.length (getNumBlocks c.length) 0 (by omega)
  simp only [getFilePos, Nat.zero_mul, Nat.zero_min, List.take_zero] at hj
  rw [Nat.sub_zero]
  rw [show (none : Option (List Nat)).getD [] = [] from rfl]
  rw [hj]

/-- C1, witness: a concrete 3-byte file arrives intact. -/
theorem c1_witness :
    jointSession idleState none "f" [3, 1, 4] =
      ⟨.ok (), idleState, some [3, 1, 4], ⟨"f", 0, 3, ErrSuccess⟩, true⟩ :=
  c1_round_trip [3, 1, 4] "f" (by decide) (by decide)

/-! ### Claim C2: resumption -/

lemma getNumBlocks_4097 : getNumBlocks 4097 = 2 := by decide

/-- C2: the scenario of the resumption law on a 4097-byte file whose
first block is all `1`s and whose final byte is `2`. The first session
receives block 0 and loses the connection, leaving state
`{name="f", size=4097, seqNum=1}` and the 4096-byte partial file. On
reconnect the server's `ResumeAck` does carry `seqNum = k = 1`, and the
transfer then runs to successful completion (client ok, server ok,
state cleared) — but because the client re-reads from file position 0
instead of seeking to `getFilePos 1`, the server writes the file's
FIRST 4096 bytes at offset 4096, and the completed archive file is
8192 bytes of `1`s, not the 4097-byte source. The byte-equality half of
the claim fails on the code. -/
theorem c2_resumption_bug :
    recv idleState none ⟨"f", 4097⟩ [⟨0, List.replicate 4096 1⟩] =
      ⟨⟨"f", 4097, 1⟩, some (List.replicate 4096 1),
        ⟨"f", 0, 4097, ErrSuccess⟩, [0], false⟩ ∧
    jointSession ⟨"f", 4097, 1⟩ (some (List.replicate 4096 1)) "f"
        (List.replicate 4096 1 ++ [2]) =
      ⟨.ok (), idleState, some (List.replicate 8192 1),
        ⟨"f", 1, 4097, ErrSuccess⟩, true⟩ ∧
    (List.replicate 8192 1 : List Nat) ≠ List.replicate 4096 1 ++ [2] := by
  have hb1len : (List.replicate 4096 1 : List Nat).length = 4096 :=
    List.length_replicate 4096 1
  have hclen : (List.replicate 4096 1 ++ [2] : List Nat).length = 4097 := by
    rw [List.length_append, List.length_replicate]
    rfl
  refine ⟨?_, ?_, ?_⟩
  · rw [recv_success_eq idleState none ⟨"f", 4097⟩ _ (by decide)
      (fun hc => hc.1 rfl) (fun hc => nomatch hc.1)]
    try dsimp only
    rw [if_pos (show idleState.name = "" from rfl)]
    try dsimp only
    rw [show (getNumBlocks (ServerState.size ⟨"f", 4097, 0⟩)) = 2 from
      getNumBlocks_4097]
    rw [recvLoop_cons]
    rw [if_pos (show ServerState.seqNum ⟨"f", 4097, 0⟩ < 2 by decide)]
    try dsimp only
    rw [show writeAt ((none : Option (List Nat)).getD [])
      (getFilePos (ServerState.seqNum ⟨"f", 4097, 0⟩))
      (List.replicate 4096 1) = List.replicate 4096 1 from by
        rw [show getFilePos (ServerState.seqNum ⟨"f", 4097, 0⟩) = 0 from rfl]
        rw [show (none : Option (List Nat)).getD [] = [] from rfl]
        unfold writeAt
        rw [List.drop_nil]
        simp only [List.take_nil, List.length_nil, Nat.sub_self,
          List.replicate_zero, List.nil_append, List.append_nil]]
    rw [recvLoop_nil]
    rw [if_pos (show ServerState.seqNum ⟨"f", 4097, 1⟩ < 2 by decide)]
  · unfold jointSession
    try dsimp only
    rw [if_neg (show ¬(("f" : String) = "") by decide)]
    rw [if_neg (show ¬(ServerState.name ⟨"f", 4097, 1⟩ ≠ "" ∧
      ServerState.name ⟨"f", 4097, 1⟩ ≠ "f") from fun hc => hc.2 rfl)]
    rw [if_neg (show ¬((some (List.replicate 4096 1) :
      Option (List Nat)).isSome = true ∧
      ServerState.name ⟨"f", 4097, 1⟩ ≠ "f") from fun hc => hc.2 rfl)]
    try dsimp only
    rw [if_neg (show ¬(ServerState.name ⟨"f", 4097, 1⟩ = "") by decide)]
    unfold jointLoop
    try dsimp only
    rw [hclen, getNumBlocks_4097]
    rw [show (2 : Nat) - 1 = 0 + 1 from rfl]
    rw [jointGo_succ]
    rw [if_pos (show ServerState.seqNum ⟨"f", 4097, 1⟩ < 2 by decide)]
    rw [if_neg (show ¬((List.replicate 4096 1 ++ [2] : List Nat).length ≤ 0 ∧
      ServerState.seqNum ⟨"f", 4097, 1⟩ ≠ 2 - 1) from
      fun hc => by rw [hclen] at hc; exact absurd hc.1 (by omega))]
    try dsimp only
    rw [List.drop_zero]
    rw [List.take_left' (show (List.replicate 4096 1 : List Nat).length =
      payloadSize from hb1len.trans rfl)]
    rw [show (some (List.replicate 4096 1) : Option (List Nat)).getD [] =
      List.replicate 4096 1 from rfl]
    rw [writeAt_append_of_len _ _ _
      (show (List.replicate 4096 1 : List Nat).length = getFilePos 1 from
        hb1len.trans rfl)]
    rw [if_neg (show ¬((1 : Nat) ≠ 1) from fun hc => hc rfl)]
    rw [jointGo_zero]
    rw [if_neg (show ¬((1 : Nat) + 1 < 2) from by omega)]
    rw [show (List.replicate 4096 1 ++ List.replicate 4096 1 : List Nat) =
      List.replicate 8192 1 from by
        rw [← List.replicate_add]]
  · intro hc
    have hlen := congrArg List.length hc
    rw [List.length_replicate, List.length_append, List.length_replicate]
      at hlen
    simp only [List.length_cons, List.length_nil] at hlen
    omega

end RTransfer
